import Mathlib

/-!
Verification development for the TinyPedal fuel-estimation core.

The embedding covers the numeric utilities of src/tinypedal/calculation.py, the
delta-fuel persistence helpers and the curve-maintenance portion of the per-tick
update loop of src/tinypedal/module/module_fuel.py.  Python floats are modelled
as rationals (exact arithmetic); Python `round(x, 6)` is modelled as round-half-
to-even at six decimal digits; Python exceptions (ZeroDivisionError, soft-failed
file loads) are modelled with `Option`.
-/

/-- Embeds Python `round(x, 6)`: round half to even on the scaled value. -/
def pyRound (x : ℚ) : ℤ :=
  if 1/2 < x - Int.floor x then Int.floor x + 1
  else if x - Int.floor x < 1/2 then Int.floor x
  else if Int.floor x % 2 = 0 then Int.floor x else Int.floor x + 1

/-- Rounding to 6 decimal digits, as used throughout module_fuel.py. -/
def round6 (x : ℚ) : ℚ := (pyRound (x * 1000000) : ℚ) / 1000000

/-- Distance key of a curve row (`row[0]` in the source). -/
def rowDist (r : List ℚ) : ℚ := r.headD 0

/-- Fuel-used field of a curve row (`row[1]` in the source). -/
def rowFuel (r : List ℚ) : ℚ := r.getD 1 0

/-- Embeds calculation.linear_interp: standard linear interpolation, returning
`y1` when the denominator `x2 - x1` is zero (Python truthiness test). -/
def linear_interp (x x1 y1 x2 y2 : ℚ) : ℚ :=
  if x2 - x1 ≠ 0 then y1 + (x - x1) * (y2 - y1) / (x2 - x1) else y1

/-- Embeds calculation.binary_search_hi.  The source's optional `column`
argument (projecting a row to its sort key via search_column_key) is embedded
as the key function `key`; the delta-curve callers pass `column = 0`,
i.e. `key = rowDist`. -/
def binary_search_hi {α : Type} [Inhabited α] (key : α → ℚ) (data : List α)
    (target : ℚ) (start stop : ℕ) : ℕ :=
  if h : start < stop then
    if target = key (data.getD ((start + stop) / 2) default) then (start + stop) / 2
    else if key (data.getD ((start + stop) / 2) default) < target then
      binary_search_hi key data target ((start + stop) / 2 + 1) stop
    else
      binary_search_hi key data target start ((start + stop) / 2)
  else stop
termination_by stop - start
decreasing_by
  all_goals omega

/-- Embeds calculation.delta_telemetry over a delta curve whose rows are lists
of rationals (`delta_list[i][0]` distance, `delta_list[i][1]` fuel used). -/
def delta_telemetry (position liveData : ℚ) (deltaList : List (List ℚ))
    (condition : Bool) (offset : ℚ) : ℚ :=
  let indexHigher := binary_search_hi rowDist deltaList position 0 (deltaList.length - 1)
  if 0 < indexHigher ∧ condition = true then
    liveData + offset - linear_interp position
      (rowDist (deltaList.getD (indexHigher - 1) default))
      (rowFuel (deltaList.getD (indexHigher - 1) default))
      (rowDist (deltaList.getD indexHigher default))
      (rowFuel (deltaList.getD indexHigher default))
  else 0

/-- Embeds calculation.total_fuel_needed. -/
def total_fuel_needed (laps_remain consumption fuel_in_tank : ℚ) : ℚ :=
  laps_remain * consumption - fuel_in_tank

/-- Embeds calculation.end_stint_pit_counts (Python truthiness guard on the
capacity). -/
def end_stint_pit_counts (fuel_needed capacity_total : ℚ) : ℚ :=
  if capacity_total ≠ 0 then fuel_needed / capacity_total else 0

/-- Embeds calculation.end_lap_pit_counts.  The division by `capacity_total` is
unconditional in the source, so Python raises ZeroDivisionError when
`capacity_total = 0`; that failure is modelled as `none`. -/
def end_lap_pit_counts (fuel_needed capacity_empty capacity_total : ℚ) : Option ℚ :=
  let fuel_addable := min fuel_needed capacity_empty
  let pit_counts_before := if capacity_empty ≠ 0 then fuel_addable / capacity_empty else 1
  if capacity_total = 0 then none
  else some (pit_counts_before + (fuel_needed - fuel_addable) / capacity_total)

/-- A persisted curve file: rows of fields, where `none` stands for a field the
CSV QUOTE_NONNUMERIC reader cannot convert to a number (Python raises
ValueError on such a file). -/
def FuelFile : Type := List (List (Option ℚ))

/-- CSV parse of one row: fails on the first non-numeric field. -/
def parseRow : List (Option ℚ) → Option (List ℚ)
  | [] => some []
  | none :: _ => none
  | some a :: rest =>
    match parseRow rest with
    | none => none
    | some t => some (a :: t)

/-- CSV parse of a persisted file: succeeds with the numeric rows exactly when
every field is numeric, mirroring csv.reader with QUOTE_NONNUMERIC which raises
ValueError on the first non-numeric field. -/
def parseFuelFile : List (List (Option ℚ)) → Option (List (List ℚ))
  | [] => some []
  | r :: rest =>
    match parseRow r with
    | none => none
    | some pr =>
      match parseFuelFile rest with
      | none => none
      | some pt => some (pr :: pt)

/-- Worker for the curve validator, keeping track of the previously kept
distance. -/
def delta_list_go (last : ℚ) : List (List ℚ) → List (List ℚ)
  | [] => []
  | r :: rest =>
    match r with
    | [a, b, c] => if last ≤ a then [a, b, c] :: delta_list_go a rest
                   else delta_list_go last rest
    | _ => delta_list_go last rest

/-- Modelled from the spec: the repository's validator module (`val.delta_list`
in module_fuel.py) is not under src/.  Per the spec, validation keeps only rows
of exactly three numeric fields whose first field (distance, never negative)
does not decrease relative to the previously kept row; offending rows are
dropped. -/
def delta_list (rows : List (List ℚ)) : List (List ℚ) := delta_list_go 0 rows

/-- Embeds Realtime.save_deltafuel for one combo id: the file is overwritten
with the curve's rows only when the curve has at least 10 samples; otherwise
the previously persisted contents are untouched. -/
def save_deltafuel (listname : List (List ℚ)) (file : Option FuelFile) : Option FuelFile :=
  if 10 ≤ listname.length then some (listname.map (fun r => r.map some)) else file

/-- Embeds Realtime.load_deltafuel for one combo id, on the modelled store:
returns ((curve, used_last, laptime_last), file after a possible re-save).
The except-branch (FileNotFoundError / ValueError from the CSV parse /
IndexError on the empty validated list) returns the default single-sample
curve. -/
def load_deltafuel (file : Option FuelFile) :
    (List (List ℚ) × ℚ × ℚ) × Option FuelFile :=
  match file with
  | none => (([[99999, 0, 0]], 0, 0), none)
  | some rows =>
    match parseFuelFile rows with
    | none => (([[99999, 0, 0]], 0, 0), some rows)
    | some temp_list =>
      let lastlist := delta_list temp_list
      match lastlist.getLast? with
      | none => (([[99999, 0, 0]], 0, 0), some rows)
      | some lastRow =>
        ((lastlist, lastRow.getD 1 0, lastRow.getD 2 0),
         if temp_list.length ≠ lastlist.length then save_deltafuel lastlist (some rows)
         else some rows)

/-- The sentinel entry DELTA_ZERO = 0.0, 0.0 of module_fuel.py (a two-field
row). -/
def deltaZero : List ℚ := [0, 0]

/-- The engine state mutated by the curve-maintenance portion of
Realtime.__update_data (module_fuel.py): the flags and accumulators set in the
reset block that lines 127-176 read or write. -/
structure FuelState where
  recording : Bool
  validating : Bool
  delayedSave : Bool
  pitLap : Bool
  deltaListLast : List (List ℚ)
  deltaListCurr : List (List ℚ)
  deltaListTemp : List (List ℚ)
  usedLast : ℚ
  usedCurr : ℚ
  usedLastRaw : ℚ
  laptimeLast : ℚ
  amountStart : ℚ
  amountLast : ℚ
  lastLapStime : ℚ
  posLast : ℚ
  posEstimate : ℚ
deriving Repr

/-- Telemetry readings consumed by one tick of the curve-maintenance code. -/
structure TickInput where
  lapStime : ℚ
  laptimeCurr : ℚ
  laptimeValid : ℚ
  amountCurr : ℚ
  posCurr : ℚ
  inPits : Bool
deriving Repr

/-- The reset block of Realtime.__update_data (state zeroed on idle-to-active
transition), parameterised by the loaded curve data. -/
def resetState (deltaListLast : List (List ℚ)) (usedLast laptimeLast : ℚ) : FuelState :=
  { recording := false, validating := false, delayedSave := false, pitLap := false
    deltaListLast := deltaListLast, deltaListCurr := [deltaZero], deltaListTemp := [deltaZero]
    usedLast := usedLast, usedCurr := 0, usedLastRaw := usedLast, laptimeLast := laptimeLast
    amountStart := 0, amountLast := 0, lastLapStime := -1, posLast := 0, posEstimate := 0 }

/-- Realtime fuel consumption step: refuel detection and running-usage
accumulation. -/
def fuelAccounting (amountCurr : ℚ) (s : FuelState) : FuelState :=
  if s.amountLast < amountCurr then
    { s with amountLast := amountCurr, amountStart := amountCurr }
  else if amountCurr < s.amountLast then
    { s with usedCurr := s.usedCurr + (s.amountLast - amountCurr), amountLast := amountCurr }
  else s

/-- Lap start and finish detection: on a lap-start-time edge, stage the
finished curve (terminal sample at last position + 10) for validation unless it
is trivial or a pit lap, then reset the in-progress curve. -/
def lapEdgeStep (lapStime laptimeCurr posCurr : ℚ) (s : FuelState) : FuelState :=
  let s1 :=
    if s.lastLapStime < lapStime ∧ s.lastLapStime ≠ -1 then
      let s0 :=
        if 1 < s.deltaListCurr.length ∧ s.pitLap = false then
          { s with
            deltaListTemp := s.deltaListCurr ++
              [[round6 (s.posLast + 10), round6 s.usedCurr, round6 (lapStime - s.lastLapStime)]]
            validating := true }
        else s
      { s0 with deltaListCurr := [deltaZero], posLast := posCurr,
                usedLastRaw := s0.usedCurr, usedCurr := 0,
                recording := decide (laptimeCurr < 1), pitLap := false }
    else s
  { s1 with lastLapStime := lapStime }

/-- One-second position distance check after a new lap begins: an implausibly
large distance reading is treated as stale and both trackers are zeroed.
Returns the corrected position reading together with the state. -/
def sanityReset (laptimeCurr posCurr : ℚ) (s : FuelState) : ℚ × FuelState :=
  if 0 < laptimeCurr ∧ laptimeCurr < 1 ∧ 300 < posCurr then (0, { s with posLast := 0 })
  else (posCurr, s)

/-- Sample recording: while recording, a strictly further (and non-negative)
position appends a 6-decimal-rounded sample; any changed non-negative position
resets the position trackers. -/
def recordStep (posCurr : ℚ) (s : FuelState) : FuelState :=
  if 0 ≤ posCurr ∧ posCurr ≠ s.posLast then
    let s0 :=
      if s.recording = true ∧ s.posLast < posCurr then
        { s with deltaListCurr := s.deltaListCurr ++ [[round6 posCurr, round6 s.usedCurr]] }
      else s
    { s0 with posEstimate := posCurr, posLast := posCurr }
  else s

/-- The validation window: while a staged lap is pending, commit it when the
current-lap time is in (0.2, 3] and the simulator's last-laptime reading is
positive; switch validation off when the current-lap time is in (3, 5). -/
def validationStep (laptimeCurr laptimeValid : ℚ) (s : FuelState) : FuelState :=
  if s.validating = true then
    if 0.2 < laptimeCurr ∧ laptimeCurr ≤ 3 then
      if 0 < laptimeValid then
        { s with usedLast := s.usedLastRaw, laptimeLast := laptimeValid,
                 deltaListLast := s.deltaListTemp, deltaListTemp := [deltaZero],
                 validating := false, delayedSave := true }
      else s
    else if 3 < laptimeCurr ∧ laptimeCurr < 5 then { s with validating := false }
    else s
  else s

/-- One tick of the curve-maintenance portion of Realtime.__update_data
(module_fuel.py lines 112-176): telemetry clamp, pit-lap OR, fuel accounting,
lap-boundary detection, position sanity guard, sample recording and the
validation window, in source order.  The later portion of the tick (delta and
projection computation, metrics publishing) reads but does not write any of the
state modelled here. -/
def fuelTick (s : FuelState) (i : TickInput) : FuelState :=
  let laptimeCurr := max i.laptimeCurr 0
  let s1 := { s with pitLap := s.pitLap || i.inPits }
  let s2 := fuelAccounting i.amountCurr s1
  let s3 := lapEdgeStep i.lapStime laptimeCurr i.posCurr s2
  let ps4 := sanityReset laptimeCurr i.posCurr s3
  let s5 := recordStep ps4.1 ps4.2
  validationStep laptimeCurr i.laptimeValid s5

/-- Sortedness of a delta curve: non-decreasing distance keys. -/
def curveSorted (c : List (List ℚ)) : Prop :=
  List.Chain' (fun a b => rowDist a ≤ rowDist b) c

/-- Distance key of the last row of a curve (0 for the empty curve). -/
def lastDist (c : List (List ℚ)) : ℚ := rowDist (c.getLastD [])

/-- Invariant tying the in-progress curve to the position tracker: the curve is
sorted starting from the sentinel, its last recorded distance is at most the
rounded current position tracker, a longer-than-sentinel curve implies a
non-negative tracker, and the curve is the bare sentinel while recording is
off. -/
def currInv (curve : List (List ℚ)) (posLast : ℚ) (recording : Bool) : Prop :=
  curveSorted curve ∧
  curve.head? = some deltaZero ∧
  lastDist curve ≤ round6 (max posLast 0) ∧
  (1 < curve.length → 0 ≤ posLast) ∧
  (recording = false → curve = [deltaZero])

/-- Full curve invariant of the engine state: the in-progress curve satisfies
`currInv` and the staged and reference curves are sorted. -/
def fuelInv (s : FuelState) : Prop :=
  currInv s.deltaListCurr s.posLast s.recording ∧
  curveSorted s.deltaListTemp ∧ curveSorted s.deltaListLast

theorem pyRound_le_floor_add_one (x : ℚ) : pyRound x ≤ Int.floor x + 1 := by
  unfold pyRound
  split_ifs <;> omega

theorem floor_le_pyRound (x : ℚ) : Int.floor x ≤ pyRound x := by
  unfold pyRound
  split_ifs <;> omega

theorem pyRound_mono {x y : ℚ} (h : x ≤ y) : pyRound x ≤ pyRound y := by
  have hf : Int.floor x ≤ Int.floor y := Int.floor_mono h
  rcases eq_or_lt_of_le hf with heq | hlt
  · unfold pyRound
    rw [← heq]
    split_ifs <;> first | omega | linarith
  · have h1 := pyRound_le_floor_add_one x
    have h2 := floor_le_pyRound y
    omega

theorem round6_mono {x y : ℚ} (h : x ≤ y) : round6 x ≤ round6 y := by
  unfold round6
  have h1 : pyRound (x * 1000000) ≤ pyRound (y * 1000000) :=
    pyRound_mono (mul_le_mul_of_nonneg_right h (by norm_num))
  have h2 : ((pyRound (x * 1000000) : ℚ)) ≤ (pyRound (y * 1000000) : ℚ) :=
    Int.cast_le.mpr h1
  linarith

theorem round6_zero : round6 0 = 0 := by norm_num [round6, pyRound]

theorem round6_nonneg {x : ℚ} (h : 0 ≤ x) : 0 ≤ round6 x := by
  have h1 := round6_mono h
  rwa [round6_zero] at h1

/-- Claim C9: linearInterp with coinciding abscissae returns y1 for every
x, a, y1, y2: the degenerate denominator is guarded, so the function is
total. -/
theorem linear_interp_degenerate (x a y1 y2 : ℚ) : linear_interp x a y1 a y2 = y1 := by
  simp [linear_interp]

/-- Claim C8, counterexample: with consumption fixed at -1, raising lapsRemain
from 0 to 1 lowers totalFuelNeeded, so the function is not monotonically
increasing in lapsRemain for every fixed consumption and fuelInTank. -/
theorem total_fuel_needed_mono_cex :
    ¬ (total_fuel_needed 0 (-1) 0 ≤ total_fuel_needed 1 (-1) 0) := by
  norm_num [total_fuel_needed]

/-- Claim C8 (amended): totalFuelNeeded is monotonically increasing in
lapsRemain when consumption is non-negative, monotonically increasing in
consumption when lapsRemain is non-negative, and monotonically decreasing in
fuelInTank unconditionally. -/
theorem total_fuel_needed_mono (l l1 l2 c c1 c2 t t1 t2 : ℚ) :
    (0 ≤ c → l1 ≤ l2 → total_fuel_needed l1 c t ≤ total_fuel_needed l2 c t) ∧
    (0 ≤ l → c1 ≤ c2 → total_fuel_needed l c1 t ≤ total_fuel_needed l c2 t) ∧
    (t1 ≤ t2 → total_fuel_needed l c t2 ≤ total_fuel_needed l c t1) := by
  unfold total_fuel_needed
  refine ⟨fun hc hl => ?_, fun hl hc => ?_, fun ht => ?_⟩
  · nlinarith
  · nlinarith
  · linarith

theorem total_fuel_needed_mono_witness :
    (total_fuel_needed 14 3 30 ≤ total_fuel_needed 15 3 30) ∧
    (total_fuel_needed 14 3 30 ≤ total_fuel_needed 14 4 30) ∧
    (total_fuel_needed 14 3 31 ≤ total_fuel_needed 14 3 30) :=
  ⟨(total_fuel_needed_mono 0 14 15 3 0 0 30 0 0).1 (by norm_num) (by norm_num),
   (total_fuel_needed_mono 14 0 0 0 3 4 30 0 0).2.1 (by norm_num) (by norm_num),
   (total_fuel_needed_mono 14 0 0 3 0 0 30 30 31).2.2 (by norm_num)⟩

/-- Claim C10: end_lap_pit_counts evaluates the division by capacity_total
unconditionally, so it fails (none, modelling ZeroDivisionError) exactly when
capacity_total = 0, for every fuel_needed and capacity_empty; the
capacity_empty = 0 case is handled (counted as one pit stop before the
division), and the sibling end_stint_pit_counts returns 0 when its capacity
argument is 0. -/
theorem end_lap_pit_counts_zero_div (fn ce ct : ℚ) :
    (end_lap_pit_counts fn ce ct = none ↔ ct = 0) ∧
    end_stint_pit_counts fn 0 = 0 ∧
    (ct ≠ 0 → end_lap_pit_counts fn 0 ct = some (1 + (fn - min fn 0) / ct)) := by
  refine ⟨?_, by simp [end_stint_pit_counts], fun hct => ?_⟩
  · unfold end_lap_pit_counts
    by_cases h : ct = 0 <;> simp [h]
  · simp [end_lap_pit_counts, hct]

theorem end_lap_pit_counts_zero_div_witness :
    end_lap_pit_counts 3 0 2 = some (1 + (3 - min 3 0) / 2) :=
  (end_lap_pit_counts_zero_div 3 0 2).2.2 (by norm_num)

theorem bsh_spec {α : Type} [Inhabited α] (key : α → ℚ) (data : List α) (target : ℚ)
    (hsort : ∀ i j : ℕ, i < j → j < data.length →
      key (data.getD i default) < key (data.getD j default))
    (start stop : ℕ) (hle : start ≤ stop) (hlen : stop < data.length)
    (hlow : ∀ j, j < start → key (data.getD j default) < target)
    (hhi : target ≤ key (data.getD stop default)) :
    start ≤ binary_search_hi key data target start stop ∧
    binary_search_hi key data target start stop ≤ stop ∧
    target ≤ key (data.getD (binary_search_hi key data target start stop) default) ∧
    ∀ j, j < binary_search_hi key data target start stop →
      key (data.getD j default) < target := by
  by_cases h : start < stop
  · rw [binary_search_hi, dif_pos h]
    by_cases heq : target = key (data.getD ((start + stop) / 2) default)
    · rw [if_pos heq]
      refine ⟨by omega, by omega, le_of_eq heq, fun j hj => ?_⟩
      rcases lt_or_le j start with hjs | hjs
      · exact hlow j hjs
      · have hkey := hsort j ((start + stop) / 2) hj (by omega)
        rw [heq]
        exact hkey
    · rw [if_neg heq]
      by_cases hlt : key (data.getD ((start + stop) / 2) default) < target
      · rw [if_pos hlt]
        have hlow2 : ∀ j, j < (start + stop) / 2 + 1 → key (data.getD j default) < target := by
          intro j hj
          rcases lt_or_le j start with hjs | hjs
          · exact hlow j hjs
          · rcases Nat.lt_or_ge j ((start + stop) / 2) with hjc | hjc
            · exact lt_trans (hsort j ((start + stop) / 2) hjc (by omega)) hlt
            · have hj2 : j = (start + stop) / 2 := by omega
              rwa [hj2]
        obtain ⟨a, b, d, e⟩ :=
          bsh_spec key data target hsort ((start + stop) / 2 + 1) stop (by omega) hlen hlow2 hhi
        exact ⟨by omega, b, d, e⟩
      · rw [if_neg hlt]
        have hhi2 : target ≤ key (data.getD ((start + stop) / 2) default) := le_of_not_lt hlt
        obtain ⟨a, b, d, e⟩ :=
          bsh_spec key data target hsort start ((start + stop) / 2) (by omega) (by omega) hlow hhi2
        exact ⟨a, by omega, d, e⟩
  · rw [binary_search_hi, dif_neg h]
    have hse : start = stop := by omega
    exact ⟨le_of_eq hse, le_rfl, hhi, fun j hj => hlow j (by omega)⟩
termination_by stop - start
decreasing_by
  all_goals omega

theorem pairwise_lt_getD {α : Type} [Inhabited α] (key : α → ℚ) (data : List α)
    (h : List.Pairwise (fun a b => key a < key b) data) :
    ∀ i j : ℕ, i < j → j < data.length →
      key (data.getD i default) < key (data.getD j default) := by
  intro i j hij hj
  have hi : i < data.length := lt_trans hij hj
  rw [List.getD_eq_getElem _ _ hi, List.getD_eq_getElem _ _ hj]
  exact List.pairwise_iff_getElem.mp h i j hi hj hij

theorem bsh_first_aux (data : List (List ℚ)) (target : ℚ)
    (hsort : List.Pairwise (fun a b => rowDist a < rowDist b) data)
    (hne : data ≠ [])
    (hhi : target ≤ rowDist (data.getD (data.length - 1) default)) :
    (binary_search_hi rowDist data target 0 (data.length - 1) < data.length ∧
     target ≤ rowDist
       (data.getD (binary_search_hi rowDist data target 0 (data.length - 1)) default) ∧
     ∀ j, j < binary_search_hi rowDist data target 0 (data.length - 1) →
       rowDist (data.getD j default) < target) ∧
    ∀ i, i < data.length → rowDist (data.getD i default) = target →
      binary_search_hi rowDist data target 0 (data.length - 1) = i := by
  have hlen : data.length - 1 < data.length := by
    cases data with
    | nil => exact absurd rfl hne
    | cons a l => simp
  obtain ⟨ha, hb, hd, he⟩ :=
    bsh_spec rowDist data target (pairwise_lt_getD _ _ hsort) 0 (data.length - 1)
      (Nat.zero_le _) hlen (fun j hj => absurd hj (Nat.not_lt_zero j)) hhi
  refine ⟨⟨Nat.lt_of_le_of_lt hb hlen, hd, he⟩, fun i hi hkey => ?_⟩
  rcases lt_trichotomy (binary_search_hi rowDist data target 0 (data.length - 1)) i with
    hri | hri | hri
  · have hk := pairwise_lt_getD _ _ hsort _ i hri hi
    rw [hkey] at hk
    exact absurd hd (not_le_of_lt hk)
  · exact hri
  · have hk := he i hri
    rw [hkey] at hk
    exact absurd hk (lt_irrefl target)

/-- Claim C3, counterexample: on the ordered-ascending (non-strict) list
[[5],[5],[5]] with target 5, binary_search_hi returns index 1, although index 0
is the first element whose key is greater or equal to the target. -/
theorem binary_search_hi_first_cex :
    binary_search_hi rowDist [[5], [5], [5]] (5 : ℚ) 0 2 = 1 ∧
    (5 : ℚ) ≤ rowDist ([[5], [5], [5]].getD 0 default) := by
  constructor
  · rw [binary_search_hi]
    norm_num [rowDist]
  · norm_num [rowDist]

/-- Claim C3 (amended): for every STRICTLY ascending sequence and every target
bounded by the last key, binary_search_hi over the whole sequence returns the
index of the first element whose key is greater or equal to the target, and
when some element's key equals the target, that element's index is returned.
With merely non-decreasing keys the result can be a non-first index among
duplicates of the target. -/
theorem binary_search_hi_first (data : List (List ℚ)) (target : ℚ)
    (hsort : List.Pairwise (fun a b => rowDist a < rowDist b) data)
    (hne : data ≠ [])
    (hhi : target ≤ rowDist (data.getD (data.length - 1) default)) :
    (binary_search_hi rowDist data target 0 (data.length - 1) < data.length ∧
     target ≤ rowDist
       (data.getD (binary_search_hi rowDist data target 0 (data.length - 1)) default) ∧
     ∀ j, j < binary_search_hi rowDist data target 0 (data.length - 1) →
       rowDist (data.getD j default) < target) ∧
    ∀ i, i < data.length → rowDist (data.getD i default) = target →
      binary_search_hi rowDist data target 0 (data.length - 1) = i :=
  bsh_first_aux data target hsort hne hhi

theorem binary_search_hi_first_witness :
    (binary_search_hi rowDist [[0, 0], [5, 1], [10, 2]] 7 0 2 < 3 ∧
     (7 : ℚ) ≤ rowDist
       ([[0, 0], [5, 1], [10, 2]].getD
         (binary_search_hi rowDist [[0, 0], [5, 1], [10, 2]] 7 0 2) default) ∧
     ∀ j, j < binary_search_hi rowDist [[0, 0], [5, 1], [10, 2]] 7 0 2 →
       rowDist ([[0, 0], [5, 1], [10, 2]].getD j default) < 7) ∧
    ∀ i, i < 3 → rowDist ([[0, 0], [5, 1], [10, 2]].getD i default) = 7 →
      binary_search_hi rowDist [[0, 0], [5, 1], [10, 2]] 7 0 2 = i :=
  binary_search_hi_first [[0, 0], [5, 1], [10, 2]] 7
    (by norm_num [List.pairwise_cons, rowDist]) (by simp)
    (by norm_num [rowDist])

/-- Claim C1: deltaTelemetry computes idxHigh by binary search over the whole
curve; when idxHigh > 0 and the condition holds it returns liveUsage + offset
minus the linear interpolation of fuelUsed against distance between
curve[idxHigh-1] and curve[idxHigh] at the position, and otherwise 0; in
particular on the curve [(0,0,0),(100,5,60)] at position 50 with liveUsage
2.5, condition true and offset 0 the result is 2.5 + 0 - 2.5 = 0. -/
theorem delta_telemetry_spec (position liveData : ℚ) (deltaList : List (List ℚ))
    (condition : Bool) (offset : ℚ) (ih : ℕ)
    (hih : ih = binary_search_hi rowDist deltaList position 0 (deltaList.length - 1)) :
    ((0 < ih ∧ condition = true) →
      delta_telemetry position liveData deltaList condition offset =
        liveData + offset - linear_interp position
          (rowDist (deltaList.getD (ih - 1) default))
          (rowFuel (deltaList.getD (ih - 1) default))
          (rowDist (deltaList.getD ih default))
          (rowFuel (deltaList.getD ih default))) ∧
    (¬ (0 < ih ∧ condition = true) →
      delta_telemetry position liveData deltaList condition offset = 0) ∧
    delta_telemetry 50 2.5 [[0, 0, 0], [100, 5, 60]] true 0 = 0 := by
  subst hih
  refine ⟨fun h => ?_, fun h => ?_, ?_⟩
  · simp only [delta_telemetry]
    rw [if_pos h]
  · simp only [delta_telemetry]
    rw [if_neg h]
  · have h1 : binary_search_hi rowDist [[0, 0, 0], [100, 5, 60]] (50 : ℚ) 1 1 = 1 := by
      rw [binary_search_hi]
      norm_num
    have h0 : binary_search_hi rowDist [[0, 0, 0], [100, 5, 60]] (50 : ℚ) 0 1 = 1 := by
      rw [binary_search_hi]
      norm_num [rowDist, h1]
    norm_num [delta_telemetry, h0, rowDist, rowFuel, linear_interp]

theorem delta_telemetry_spec_witness :
    delta_telemetry 50 2.5 [[0, 0, 0], [100, 5, 60]] true 0 =
      2.5 + 0 - linear_interp 50
        (rowDist ([[0, 0, 0], [100, 5, 60]].getD 0 default))
        (rowFuel ([[0, 0, 0], [100, 5, 60]].getD 0 default))
        (rowDist ([[0, 0, 0], [100, 5, 60]].getD 1 default))
        (rowFuel ([[0, 0, 0], [100, 5, 60]].getD 1 default)) := by
  have h1 : binary_search_hi rowDist [[0, 0, 0], [100, 5, 60]] (50 : ℚ) 1 1 = 1 := by
    rw [binary_search_hi]
    norm_num
  have h0 : binary_search_hi rowDist [[0, 0, 0], [100, 5, 60]] (50 : ℚ) 0
      ([[0, 0, 0], [100, 5, 60]].length - 1) = 1 := by
    rw [binary_search_hi]
    norm_num [rowDist, h1]
  have h := (delta_telemetry_spec 50 2.5 [[0, 0, 0], [100, 5, 60]] true 0 1 h0.symm).1
    (by norm_num)
  simpa using h

/-- Claim C7: on a curve with strictly ascending distances, querying at a knot
distance curve[i].distance (i > 0) makes the binary search return i exactly,
and deltaTelemetry with condition true and offset 0 returns exactly
liveUsage - curve[i].fuelUsed (zero interpolation error at the knots). -/
theorem delta_telemetry_knot (curve : List (List ℚ)) (liveData : ℚ) (i : ℕ)
    (hsort : List.Pairwise (fun a b => rowDist a < rowDist b) curve)
    (hi0 : 0 < i) (hilen : i < curve.length) :
    binary_search_hi rowDist curve (rowDist (curve.getD i default)) 0
      (curve.length - 1) = i ∧
    delta_telemetry (rowDist (curve.getD i default)) liveData curve true 0 =
      liveData - rowFuel (curve.getD i default) := by
  have hne : curve ≠ [] := by
    intro hcon
    rw [hcon] at hilen
    simp at hilen
  have hil : i ≤ curve.length - 1 := by omega
  have hhi : rowDist (curve.getD i default) ≤
      rowDist (curve.getD (curve.length - 1) default) := by
    rcases eq_or_lt_of_le hil with hieq | hilt
    · rw [hieq]
    · exact le_of_lt (pairwise_lt_getD _ _ hsort i (curve.length - 1) hilt (by omega))
  obtain ⟨hmain, huniq⟩ := bsh_first_aux curve (rowDist (curve.getD i default)) hsort hne hhi
  have hr : binary_search_hi rowDist curve (rowDist (curve.getD i default)) 0
      (curve.length - 1) = i := huniq i hilen rfl
  refine ⟨hr, ?_⟩
  have hx : rowDist (curve.getD (i - 1) default) < rowDist (curve.getD i default) :=
    pairwise_lt_getD _ _ hsort (i - 1) i (by omega) hilen
  have hdiff : rowDist (curve.getD i default) - rowDist (curve.getD (i - 1) default) ≠ 0 :=
    sub_ne_zero_of_ne (ne_of_gt hx)
  simp only [delta_telemetry, hr]
  rw [if_pos ⟨hi0, trivial⟩]
  unfold linear_interp
  rw [if_pos hdiff, mul_div_cancel_left₀ _ hdiff]
  ring

theorem delta_telemetry_knot_witness :
    binary_search_hi rowDist [[0, 0], [100, 5]]
      (rowDist ([[0, 0], [100, 5]].getD 1 default)) 0 1 = 1 ∧
    delta_telemetry (rowDist ([[0, 0], [100, 5]].getD 1 default)) 7 [[0, 0], [100, 5]]
      true 0 = 7 - rowFuel ([[0, 0], [100, 5]].getD 1 default) :=
  delta_telemetry_knot [[0, 0], [100, 5]] 7 1
    (by norm_num [List.pairwise_cons, rowDist]) (by norm_num) (by norm_num)

/-- Claim C2, counterexample: a tick that reaches the validation window with a
current-lap time of 6 seconds (past 3s, no confirmation possible since 6 is
outside (0.2, 3]) leaves the pending-validation state in place, because the
abandon branch only fires for current-lap times strictly between 3 and 5
seconds. -/
theorem validation_window_cex :
    (fuelTick
      ⟨true, true, false, false, [[99999, 0, 0]], [deltaZero],
       [[0, 0], [50, 1], [110, 2, 60]], 0, 0.4, 2, 0, 50, 47.6, 20, 30, 30⟩
      ⟨20, 6, 60, 47.6, 30, false⟩).validating = true := by
  norm_num [fuelTick, fuelAccounting, lapEdgeStep, sanityReset, recordStep,
    validationStep, deltaZero]

/-- Claim C2 (amended): while a lap is staged for validation, a tick whose
current-lap time is in (0.2, 3] with a positive last-laptime reading commits
the staged curve as the new reference (adopting the read laptime and the raw
usage as the new baseline, resetting the staged curve and marking the state
dirty for end-of-session persistence); a tick whose current-lap time is in
(3, 5) abandons the staged lap; a tick whose current-lap time is at least 5
leaves the pending-validation state unchanged. -/
theorem validation_window (lc lv : ℚ) (s : FuelState) (hv : s.validating = true) :
    ((0.2 < lc ∧ lc ≤ 3 ∧ 0 < lv) → validationStep lc lv s =
      { s with usedLast := s.usedLastRaw, laptimeLast := lv,
               deltaListLast := s.deltaListTemp, deltaListTemp := [deltaZero],
               validating := false, delayedSave := true }) ∧
    ((3 < lc ∧ lc < 5) → (validationStep lc lv s).validating = false) ∧
    (5 ≤ lc → validationStep lc lv s = s) := by
  refine ⟨fun h => ?_, fun h => ?_, fun h => ?_⟩
  · unfold validationStep
    rw [if_pos hv, if_pos ⟨h.1, h.2.1⟩, if_pos h.2.2]
  · unfold validationStep
    rw [if_pos hv, if_neg (by rintro ⟨h1, h2⟩; linarith), if_pos h]
  · unfold validationStep
    rw [if_pos hv, if_neg (by rintro ⟨h1, h2⟩; linarith),
        if_neg (by rintro ⟨h1, h2⟩; linarith)]

theorem validation_window_witness :
    validationStep 1 60
      ⟨true, true, false, false, [[99999, 0, 0]], [deltaZero],
       [[0, 0], [50, 1], [110, 2, 60]], 0, 0.4, 2, 0, 50, 47.6, 20, 30, 30⟩ =
    ⟨true, false, true, false, [[0, 0], [50, 1], [110, 2, 60]], [deltaZero],
     [deltaZero], 2, 0.4, 2, 60, 50, 47.6, 20, 30, 30⟩ := by
  exact (validation_window 1 60 _ rfl).1 (by norm_num)

theorem curveSorted_append {c : List (List ℚ)} {r : List ℚ}
    (hs : curveSorted c) (hd : lastDist c ≤ rowDist r) : curveSorted (c ++ [r]) := by
  rw [curveSorted, List.chain'_append]
  refine ⟨hs, List.chain'_singleton r, fun x hx y hy => ?_⟩
  simp only [List.head?_cons, Option.mem_def, Option.some.injEq] at hy
  subst hy
  simp only [Option.mem_def] at hx
  have hgl : c.getLastD [] = x := by
    rw [List.getLastD_eq_getLast?, hx]
    rfl
  rw [lastDist, hgl] at hd
  exact hd

theorem lastDist_append (c : List (List ℚ)) (r : List ℚ) :
    lastDist (c ++ [r]) = rowDist r := by
  rw [lastDist]
  simp [List.getLastD_eq_getLast?]

theorem head?_append_sentinel {c : List (List ℚ)} {r : List ℚ}
    (h : c.head? = some deltaZero) : (c ++ [r]).head? = some deltaZero := by
  cases c with
  | nil => simp at h
  | cons a l => simpa using h

theorem curveSorted_sentinel : curveSorted [deltaZero] := List.chain'_singleton _

theorem currInv_sentinel (p : ℚ) (r : Bool) : currInv [deltaZero] p r := by
  refine ⟨curveSorted_sentinel, rfl, ?_, ?_, fun _ => rfl⟩
  · have h0 : lastDist [deltaZero] = 0 := by
      simp [lastDist, deltaZero, rowDist]
    rw [h0]
    exact round6_nonneg (le_max_right p 0)
  · intro h
    simp at h

theorem fuelAccounting_fields (a : ℚ) (s : FuelState) :
    (fuelAccounting a s).deltaListCurr = s.deltaListCurr ∧
    (fuelAccounting a s).deltaListTemp = s.deltaListTemp ∧
    (fuelAccounting a s).deltaListLast = s.deltaListLast ∧
    (fuelAccounting a s).posLast = s.posLast ∧
    (fuelAccounting a s).recording = s.recording ∧
    (fuelAccounting a s).lastLapStime = s.lastLapStime := by
  unfold fuelAccounting
  split_ifs <;> exact ⟨rfl, rfl, rfl, rfl, rfl, rfl⟩

theorem fuelInv_fuelAccounting {a : ℚ} {s : FuelState} (h : fuelInv s) :
    fuelInv (fuelAccounting a s) := by
  unfold fuelAccounting
  split_ifs <;> exact h

theorem recordStep_temp (p : ℚ) (s : FuelState) :
    (recordStep p s).deltaListTemp = s.deltaListTemp := by
  unfold recordStep
  split_ifs <;> rfl

theorem recordStep_last (p : ℚ) (s : FuelState) :
    (recordStep p s).deltaListLast = s.deltaListLast := by
  unfold recordStep
  split_ifs <;> rfl

theorem lapEdgeStep_inv (lapStime lc posCurr : ℚ) (s : FuelState)
    (hc : currInv s.deltaListCurr s.posLast s.recording)
    (htemp : curveSorted s.deltaListTemp) :
    currInv (lapEdgeStep lapStime lc posCurr s).deltaListCurr
      (lapEdgeStep lapStime lc posCurr s).posLast
      (lapEdgeStep lapStime lc posCurr s).recording ∧
    curveSorted (lapEdgeStep lapStime lc posCurr s).deltaListTemp ∧
    (lapEdgeStep lapStime lc posCurr s).deltaListLast = s.deltaListLast ∧
    ((¬ (s.lastLapStime < lapStime ∧ s.lastLapStime ≠ -1)) →
      ((lapEdgeStep lapStime lc posCurr s).deltaListCurr = s.deltaListCurr ∧
       (lapEdgeStep lapStime lc posCurr s).posLast = s.posLast ∧
       (lapEdgeStep lapStime lc posCurr s).recording = s.recording)) ∧
    ((s.lastLapStime < lapStime ∧ s.lastLapStime ≠ -1) →
      ((lapEdgeStep lapStime lc posCurr s).deltaListCurr = [deltaZero] ∧
       (lapEdgeStep lapStime lc posCurr s).posLast = posCurr)) := by
  obtain ⟨h1, h2, h3, h4, h5⟩ := hc
  unfold lapEdgeStep
  by_cases hedge : s.lastLapStime < lapStime ∧ s.lastLapStime ≠ -1
  · rw [if_pos hedge]
    by_cases hstage : 1 < s.deltaListCurr.length ∧ s.pitLap = false
    · rw [if_pos hstage]
      refine ⟨currInv_sentinel _ _, ?_, rfl, fun hcon => absurd hedge hcon,
        fun _ => ⟨rfl, rfl⟩⟩
      have hpl : 0 ≤ s.posLast := h4 hstage.1
      have hterm : lastDist s.deltaListCurr ≤
          rowDist [round6 (s.posLast + 10), round6 s.usedCurr,
            round6 (lapStime - s.lastLapStime)] := by
        have hmax : max s.posLast 0 = s.posLast := max_eq_left hpl
        have hstep : round6 s.posLast ≤ round6 (s.posLast + 10) :=
          round6_mono (by linarith)
        calc lastDist s.deltaListCurr ≤ round6 (max s.posLast 0) := h3
          _ = round6 s.posLast := by rw [hmax]
          _ ≤ round6 (s.posLast + 10) := hstep
          _ = rowDist [round6 (s.posLast + 10), round6 s.usedCurr,
                round6 (lapStime - s.lastLapStime)] := by simp [rowDist]
      exact curveSorted_append h1 hterm
    · rw [if_neg hstage]
      exact ⟨currInv_sentinel _ _, htemp, rfl, fun hcon => absurd hedge hcon,
        fun _ => ⟨rfl, rfl⟩⟩
  · rw [if_neg hedge]
    exact ⟨⟨h1, h2, h3, h4, h5⟩, htemp, rfl, fun _ => ⟨rfl, rfl, rfl⟩,
      fun hcon => absurd hcon hedge⟩

theorem recordStep_inv (posCurr : ℚ) (s : FuelState)
    (hc : currInv s.deltaListCurr s.posLast s.recording)
    (hpos : s.recording = true → s.posLast ≤ posCurr) :
    currInv (recordStep posCurr s).deltaListCurr (recordStep posCurr s).posLast
      (recordStep posCurr s).recording := by
  obtain ⟨h1, h2, h3, h4, h5⟩ := hc
  unfold recordStep
  by_cases hb : 0 ≤ posCurr ∧ posCurr ≠ s.posLast
  · rw [if_pos hb]
    by_cases ha : s.recording = true ∧ s.posLast < posCurr
    · rw [if_pos ha]
      refine ⟨?_, head?_append_sentinel h2, ?_, fun _ => hb.1, fun hcon => ?_⟩
      · have hd : lastDist s.deltaListCurr ≤
            rowDist [round6 posCurr, round6 s.usedCurr] := by
          have hmax : max s.posLast 0 ≤ posCurr := max_le (le_of_lt ha.2) hb.1
          calc lastDist s.deltaListCurr ≤ round6 (max s.posLast 0) := h3
            _ ≤ round6 posCurr := round6_mono hmax
            _ = rowDist [round6 posCurr, round6 s.usedCurr] := by simp [rowDist]
        exact curveSorted_append h1 hd
      · rw [lastDist_append]
        have hmax : max posCurr 0 = posCurr := max_eq_left hb.1
        rw [hmax]
        simp [rowDist]
      · rw [ha.1] at hcon
        exact absurd hcon (by simp)
    · rw [if_neg ha]
      by_cases hrec : s.recording = true
      · push_neg at ha
        exact absurd (le_antisymm (ha hrec) (hpos hrec)) hb.2
      · have hrec' : s.recording = false := by
          revert hrec
          cases s.recording <;> simp
        have hcurve := h5 hrec'
        refine ⟨h1, h2, ?_, fun _ => hb.1, fun _ => hcurve⟩
        rw [hcurve]
        have h0 : lastDist [deltaZero] = 0 := by simp [lastDist, deltaZero, rowDist]
        rw [h0]
        exact round6_nonneg (le_max_right posCurr 0)
  · rw [if_neg hb]
    exact ⟨h1, h2, h3, h4, h5⟩

theorem validationStep_inv (lc lv : ℚ) (s : FuelState)
    (hc : currInv s.deltaListCurr s.posLast s.recording)
    (htemp : curveSorted s.deltaListTemp)
    (hlast : curveSorted s.deltaListLast) :
    fuelInv (validationStep lc lv s) := by
  unfold validationStep
  split_ifs <;> exact ⟨hc, by first | exact curveSorted_sentinel | exact htemp,
    by first | exact htemp | exact hlast⟩

theorem sanityReset_pos {lc p : ℚ} (s : FuelState) (h : 0 < lc ∧ lc < 1 ∧ 300 < p) :
    sanityReset lc p s = (0, { s with posLast := 0 }) := by
  unfold sanityReset
  rw [if_pos h]

theorem sanityReset_neg {lc p : ℚ} (s : FuelState) (h : ¬ (0 < lc ∧ lc < 1 ∧ 300 < p)) :
    sanityReset lc p s = (p, s) := by
  unfold sanityReset
  rw [if_neg h]

theorem currInv_posLast_zero {s : FuelState} (h : s.deltaListCurr = [deltaZero]) :
    currInv ({ s with posLast := 0 } : FuelState).deltaListCurr
      ({ s with posLast := 0 } : FuelState).posLast
      ({ s with posLast := 0 } : FuelState).recording := by
  show currInv s.deltaListCurr 0 s.recording
  rw [h]
  exact currInv_sentinel 0 s.recording

/-- Claim C4 (amended): the in-progress Delta Curve starts from the two-field
sentinel (0.0, 0.0); a tick appends a recording sample only when the position
reading is non-negative and strictly greater than the last CHECKED position
(which can lag below the last recorded distance after a backwards position
reading), and the staged terminal sample's distance is the 6-decimal rounding
of the last checked position plus 10.  The sortedness invariant of all three
curves the engine maintains is preserved by a tick provided the position
reading does not decrease while recording is armed and the early-lap 300m
reset only fires on lap-boundary ticks; without that proviso a tick can break
sortedness. -/
theorem fuelTick_inv (s : FuelState) (i : TickInput)
    (hinv : fuelInv s)
    (hpos : s.recording = true → s.posLast ≤ i.posCurr)
    (hsan : (0 < max i.laptimeCurr 0 ∧ max i.laptimeCurr 0 < 1 ∧ 300 < i.posCurr) →
      (s.lastLapStime < i.lapStime ∧ s.lastLapStime ≠ -1)) :
    fuelInv (fuelTick s i) := by
  obtain ⟨hc, htemp, hlast⟩ := hinv
  simp only [fuelTick]
  obtain ⟨f1, f2, f3, f4, f5, f6⟩ :=
    fuelAccounting_fields i.amountCurr { s with pitLap := s.pitLap || i.inPits }
  have hc2 : currInv
      (fuelAccounting i.amountCurr { s with pitLap := s.pitLap || i.inPits }).deltaListCurr
      (fuelAccounting i.amountCurr { s with pitLap := s.pitLap || i.inPits }).posLast
      (fuelAccounting i.amountCurr { s with pitLap := s.pitLap || i.inPits }).recording := by
    rw [f1, f4, f5]
    exact hc
  have htemp2 : curveSorted
      (fuelAccounting i.amountCurr { s with pitLap := s.pitLap || i.inPits }).deltaListTemp := by
    rw [f2]
    exact htemp
  obtain ⟨e1, e2, e3, e4, e5⟩ :=
    lapEdgeStep_inv i.lapStime (max i.laptimeCurr 0) i.posCurr _ hc2 htemp2
  have hlast3 : curveSorted
      (lapEdgeStep i.lapStime (max i.laptimeCurr 0) i.posCurr
        (fuelAccounting i.amountCurr
          { s with pitLap := s.pitLap || i.inPits })).deltaListLast := by
    rw [e3, f3]
    exact hlast
  by_cases hs : 0 < max i.laptimeCurr 0 ∧ max i.laptimeCurr 0 < 1 ∧ 300 < i.posCurr
  · have hedge2 : (fuelAccounting i.amountCurr
        { s with pitLap := s.pitLap || i.inPits }).lastLapStime < i.lapStime ∧
        (fuelAccounting i.amountCurr
          { s with pitLap := s.pitLap || i.inPits }).lastLapStime ≠ -1 := by
      rw [f6]
      exact hsan hs
    obtain ⟨ecurve, epos⟩ := e5 hedge2
    rw [sanityReset_pos _ hs]
    apply validationStep_inv
    · exact recordStep_inv _ _ (currInv_posLast_zero ecurve) (fun _ => le_rfl)
    · rw [recordStep_temp]
      exact e2
    · rw [recordStep_last]
      exact hlast3
  · rw [sanityReset_neg _ hs]
    apply validationStep_inv
    · apply recordStep_inv _ _ e1
      by_cases hedge : (fuelAccounting i.amountCurr
          { s with pitLap := s.pitLap || i.inPits }).lastLapStime < i.lapStime ∧
          (fuelAccounting i.amountCurr
            { s with pitLap := s.pitLap || i.inPits }).lastLapStime ≠ -1
      · obtain ⟨_, eq_pos⟩ := e5 hedge
        intro _
        rw [eq_pos]
      · obtain ⟨eq_c, eq_p, eq_r⟩ := e4 hedge
        intro hrec
        rw [eq_p, f4]
        apply hpos
        rw [eq_r, f5] at hrec
        exact hrec
    · rw [recordStep_temp]
      exact e2
    · rw [recordStep_last]
      exact hlast3

/-- Claim C4, counterexample: starting from the reset state, five ticks of the
engine (lap start at second tick, then position readings 100, 50, 60 while
recording) produce the in-progress curve [[0,0],[100,0],[60,0]], which is not
sorted: the append guard compares against the last checked position (reset to
50 by the backwards reading), not the last recorded distance 100. -/
theorem fuelTick_inv_cex :
    ¬ curveSorted
      (fuelTick (fuelTick (fuelTick (fuelTick (fuelTick
        (resetState [[99999, 0, 0]] 0 0)
        ⟨10, 0.5, 0, 0, 0, false⟩)
        ⟨20, 0.5, 0, 0, 0, false⟩)
        ⟨20, 2, 0, 0, 100, false⟩)
        ⟨20, 3, 0, 0, 50, false⟩)
        ⟨20, 4, 0, 0, 60, false⟩).deltaListCurr := by
  have hdec : decide ((0.5 : ℚ) < 1) = true := decide_eq_true (by norm_num)
  have r0 : round6 0 = 0 := round6_zero
  have r100 : round6 100 = 100 := by norm_num [round6, pyRound]
  have r60 : round6 60 = 60 := by norm_num [round6, pyRound]
  have h1 : fuelTick (resetState [[99999, 0, 0]] 0 0) ⟨10, 0.5, 0, 0, 0, false⟩ =
      ⟨false, false, false, false, [[99999, 0, 0]], [deltaZero], [deltaZero],
       0, 0, 0, 0, 0, 0, 10, 0, 0⟩ := by
    norm_num [fuelTick, fuelAccounting, lapEdgeStep, sanityReset, recordStep,
      validationStep, resetState, max_def]
  have h2 : fuelTick
      (⟨false, false, false, false, [[99999, 0, 0]], [deltaZero], [deltaZero],
        0, 0, 0, 0, 0, 0, 10, 0, 0⟩ : FuelState) ⟨20, 0.5, 0, 0, 0, false⟩ =
      ⟨true, false, false, false, [[99999, 0, 0]], [deltaZero], [deltaZero],
       0, 0, 0, 0, 0, 0, 20, 0, 0⟩ := by
    norm_num [fuelTick, fuelAccounting, lapEdgeStep, sanityReset, recordStep,
      validationStep, max_def, hdec]
  have h3 : fuelTick
      (⟨true, false, false, false, [[99999, 0, 0]], [deltaZero], [deltaZero],
        0, 0, 0, 0, 0, 0, 20, 0, 0⟩ : FuelState) ⟨20, 2, 0, 0, 100, false⟩ =
      ⟨true, false, false, false, [[99999, 0, 0]], [deltaZero, [100, 0]], [deltaZero],
       0, 0, 0, 0, 0, 0, 20, 100, 100⟩ := by
    norm_num [fuelTick, fuelAccounting, lapEdgeStep, sanityReset, recordStep,
      validationStep, max_def, r100, r0]
  have h4 : fuelTick
      (⟨true, false, false, false, [[99999, 0, 0]], [deltaZero, [100, 0]], [deltaZero],
        0, 0, 0, 0, 0, 0, 20, 100, 100⟩ : FuelState) ⟨20, 3, 0, 0, 50, false⟩ =
      ⟨true, false, false, false, [[99999, 0, 0]], [deltaZero, [100, 0]], [deltaZero],
       0, 0, 0, 0, 0, 0, 20, 50, 50⟩ := by
    norm_num [fuelTick, fuelAccounting, lapEdgeStep, sanityReset, recordStep,
      validationStep, max_def]
  have h5 : fuelTick
      (⟨true, false, false, false, [[99999, 0, 0]], [deltaZero, [100, 0]], [deltaZero],
        0, 0, 0, 0, 0, 0, 20, 50, 50⟩ : FuelState) ⟨20, 4, 0, 0, 60, false⟩ =
      ⟨true, false, false, false, [[99999, 0, 0]], [deltaZero, [100, 0], [60, 0]],
       [deltaZero], 0, 0, 0, 0, 0, 0, 20, 60, 60⟩ := by
    norm_num [fuelTick, fuelAccounting, lapEdgeStep, sanityReset, recordStep,
      validationStep, max_def, r60, r0]
  rw [h1, h2, h3, h4, h5]
  intro hcon
  rw [curveSorted] at hcon
  have := (List.chain'_cons.mp (List.chain'_cons.mp hcon).2).1
  norm_num [rowDist, deltaZero] at this

theorem fuelTick_inv_witness :
    fuelInv (fuelTick (resetState [[99999, 0, 0]] 0 0) ⟨10, 0.5, 0, 0, 0, false⟩) := by
  apply fuelTick_inv
  · refine ⟨⟨curveSorted_sentinel, rfl, ?_, ?_, fun _ => rfl⟩, curveSorted_sentinel, ?_⟩
    · show lastDist [deltaZero] ≤ round6 (max 0 0)
      norm_num [lastDist, deltaZero, rowDist, round6, pyRound, max_def]
    · intro h
      simp [resetState] at h
    · exact List.chain'_singleton _
  · intro h
    simp [resetState] at h
  · intro h
    exact absurd h.2.2 (by norm_num)

theorem parseRow_map_some (r : List ℚ) : parseRow (r.map some) = some r := by
  induction r with
  | nil => rfl
  | cons a t ih =>
    simp only [List.map_cons, parseRow, ih]

theorem parse_map_some (rows : List (List ℚ)) :
    parseFuelFile (rows.map (fun r => r.map some)) = some rows := by
  induction rows with
  | nil => rfl
  | cons r rest ih =>
    simp only [List.map_cons, parseFuelFile, parseRow_map_some, ih]

theorem list_len_three {r : List ℚ} (h : r.length = 3) : ∃ a b c, r = [a, b, c] := by
  rcases r with _ | ⟨a, r⟩
  · simp at h
  rcases r with _ | ⟨b, r⟩
  · simp at h
  rcases r with _ | ⟨c, r⟩
  · simp at h
  rcases r with _ | ⟨d, r⟩
  · exact ⟨a, b, c, rfl⟩
  · simp at h

theorem delta_list_go_id (curve : List (List ℚ)) (d : ℚ)
    (h3 : ∀ r ∈ curve, r.length = 3)
    (hsorted : List.Chain' (fun a b => rowDist a ≤ rowDist b) curve)
    (hd : ∀ r', curve.head? = some r' → d ≤ rowDist r') :
    delta_list_go d curve = curve := by
  induction curve generalizing d with
  | nil => rfl
  | cons r rest ih =>
    obtain ⟨a, b, c, rfl⟩ := list_len_three (h3 r (List.mem_cons_self r rest))
    have hd' : d ≤ a := by simpa [rowDist] using hd [a, b, c] rfl
    simp only [delta_list_go]
    rw [if_pos hd']
    congr 1
    apply ih
    · intro r' hr'
      exact h3 r' (List.mem_cons_of_mem _ hr')
    · exact hsorted.tail
    · intro r' hr'
      have := hsorted.rel_head? hr'
      simpa [rowDist] using this

/-- Claim C5: saving a Delta-Curve (well-formed per the data model: three-field
samples, non-decreasing non-negative distances) with at least 10 samples and
loading it back returns exactly the same samples; saving a curve with fewer
than 10 samples leaves any previously persisted file unchanged. -/
theorem save_load_roundtrip (curve : List (List ℚ)) (file : Option FuelFile) :
    (curve.length < 10 → save_deltafuel curve file = file) ∧
    (10 ≤ curve.length →
      (∀ r ∈ curve, r.length = 3) →
      List.Chain' (fun a b => rowDist a ≤ rowDist b) curve →
      (∀ r', curve.head? = some r' → 0 ≤ rowDist r') →
      (load_deltafuel (save_deltafuel curve file)).1.1 = curve) := by
  constructor
  · intro h
    unfold save_deltafuel
    rw [if_neg (by omega)]
  · intro hlen h3 hsort hhead
    have hdl : delta_list curve = curve := delta_list_go_id curve 0 h3 hsort hhead
    have hne : curve ≠ [] := by
      intro hcon
      rw [hcon] at hlen
      simp at hlen
    rcases hgl : curve.getLast? with _ | lastRow
    · rw [List.getLast?_eq_none_iff] at hgl
      exact absurd hgl hne
    · unfold save_deltafuel
      rw [if_pos hlen]
      simp only [load_deltafuel, parse_map_some, hdl, hgl]

theorem save_load_roundtrip_witness :
    (load_deltafuel (save_deltafuel
      [[0, 0, 0], [1, 1, 1], [2, 1, 1], [3, 1, 1], [4, 1, 1],
       [5, 1, 1], [6, 1, 1], [7, 1, 1], [8, 1, 1], [9, 2, 61]] none)).1.1 =
      [[0, 0, 0], [1, 1, 1], [2, 1, 1], [3, 1, 1], [4, 1, 1],
       [5, 1, 1], [6, 1, 1], [7, 1, 1], [8, 1, 1], [9, 2, 61]] ∧
    save_deltafuel [[0, 0, 0], [10, 1, 1]] (some [[some 3, some 4, some 5]]) =
      some [[some 3, some 4, some 5]] :=
  ⟨(save_load_roundtrip _ none).2 (by norm_num)
      (by intro r hr; fin_cases hr <;> rfl)
      (by norm_num [List.chain'_cons, rowDist])
      (by intro r' hr'; simp at hr'; subst hr'; norm_num [rowDist]),
   (save_load_roundtrip _ _).1 (by norm_num)⟩

/-- Claim C6: for a store whose persisted file is missing, contains a
non-numeric field (the CSV parse fails), or is empty after validation
(malformed rows all dropped), load does not fail: it returns the single-sample
default curve [(99999, 0, 0)] with lastUsed = 0 and lastLapTime = 0. -/
theorem load_deltafuel_soft_fail (store : Option FuelFile) :
    (store = none →
      (load_deltafuel store).1 = ([[99999, 0, 0]], 0, 0)) ∧
    (∀ rows, store = some rows → parseFuelFile rows = none →
      (load_deltafuel store).1 = ([[99999, 0, 0]], 0, 0)) ∧
    (∀ rows temp_list, store = some rows → parseFuelFile rows = some temp_list →
      delta_list temp_list = [] →
      (load_deltafuel store).1 = ([[99999, 0, 0]], 0, 0)) := by
  refine ⟨fun h => ?_, fun rows h hp => ?_, fun rows temp_list h hp hd => ?_⟩
  · subst h
    rfl
  · subst h
    simp only [load_deltafuel, hp]
  · subst h
    simp only [load_deltafuel, hp, hd, List.getLast?_nil]

theorem load_deltafuel_soft_fail_witness :
    (load_deltafuel none).1 = ([[99999, 0, 0]], 0, 0) ∧
    (load_deltafuel (some [[some 1, none, some 2]])).1 = ([[99999, 0, 0]], 0, 0) ∧
    (load_deltafuel (some [[some 50, some 1], [some 40, some 2, some 3, some 4]])).1 =
      ([[99999, 0, 0]], 0, 0) :=
  ⟨(load_deltafuel_soft_fail none).1 rfl,
   (load_deltafuel_soft_fail _).2.1 _ rfl rfl,
   (load_deltafuel_soft_fail _).2.2 _ [[50, 1], [40, 2, 3, 4]] rfl rfl rfl⟩
